import Mathlib

/-!
Shallow embedding of `src/Ventas.py` (sales ledger for wetsuit garments):
record validation, derived-field computation (`compute_fields`), ledger
append (`add_sale`), timestamp parsing (`parse_datetime`) and the daily /
ISO-weekly aggregation (`daily_summary`, `weekly_summary`).

Monetary values are modelled as exact rationals; Python's `round(x, 2)`
(round-half-to-even on the value) is modelled by `round2`.
-/

namespace Ventas

/-! ### Rounding: Python's `round(x, 2)` as round-half-to-even on ℚ -/

/-- Round half to even (banker's rounding) of a rational to an integer,
the semantics of Python's builtin `round`. -/
def rhe (x : ℚ) : ℤ :=
  if x - ⌊x⌋ < 1/2 then ⌊x⌋
  else if 1/2 < x - ⌊x⌋ then ⌊x⌋ + 1
  else if ⌊x⌋ % 2 = 0 then ⌊x⌋ else ⌊x⌋ + 1

/-- Python's `round(x, 2)`: round to 2 decimal places, half to even. -/
def round2 (x : ℚ) : ℚ := (rhe (100 * x) : ℚ) / 100

theorem rhe_intCast (n : ℤ) : rhe (n : ℚ) = n := by
  unfold rhe
  rw [Int.floor_intCast]
  norm_num

/-- Translating by an even integer commutes with round-half-to-even. -/
theorem rhe_add_even (x : ℚ) (k : ℤ) (hk : k % 2 = 0) :
    rhe (x + k) = rhe x + k := by
  have hfl : ⌊x + (k : ℚ)⌋ = ⌊x⌋ + k := Int.floor_add_int x k
  have hfrac : x + (k : ℚ) - ((⌊x⌋ + k : ℤ) : ℚ) = x - ⌊x⌋ := by
    push_cast; ring
  have hpar : (⌊x⌋ + k) % 2 = ⌊x⌋ % 2 := by omega
  unfold rhe
  rw [hfl, hfrac, hpar]
  split_ifs <;> omega

theorem round2_intCast (n : ℤ) : round2 (n : ℚ) = n := by
  unfold round2
  rw [show (100 : ℚ) * n = ((100 * n : ℤ) : ℚ) by push_cast; ring, rhe_intCast]
  push_cast
  field_simp

theorem round2_sub_int (x : ℚ) (n : ℤ) : round2 (x - n) = round2 x - n := by
  unfold round2
  rw [show (100 : ℚ) * (x - n) = 100 * x + ((-(100 * n) : ℤ) : ℚ) by push_cast; ring,
    rhe_add_even (100 * x) (-(100 * n)) (by omega)]
  push_cast
  field_simp
  ring

theorem round2_int_div_100 (z : ℤ) : round2 ((z : ℚ) / 100) = (z : ℚ) / 100 := by
  unfold round2
  rw [show (100 : ℚ) * ((z : ℚ) / 100) = (z : ℚ) by field_simp, rhe_intCast]

/-- Rounding after subtracting an integer agrees with first rounding both
operands and then rounding the difference again. -/
theorem round2_rounding_order (x : ℚ) (n : ℤ) :
    round2 (x - n) = round2 (round2 x - round2 (n : ℚ)) := by
  have h1 : round2 x - (n : ℚ) = ((rhe (100 * x) - 100 * n : ℤ) : ℚ) / 100 := by
    unfold round2
    push_cast
    field_simp
  rw [round2_intCast, round2_sub_int, h1, round2_int_div_100, ← h1]

/-! ### Category / cost table (`COSTS`, `VALID_TYPES` in the source) -/

/-- `COSTS = {'hombre': 35.0, 'mujer': 30.0, 'niño': 22.0}` as an
insertion-ordered association list. -/
def COSTS : List (String × ℚ) := [("hombre", 35), ("mujer", 30), ("niño", 22)]

/-- `VALID_TYPES = set(COSTS.keys())` (only membership is used). -/
def VALID_TYPES : List String := COSTS.map Prod.fst

/-- Dictionary access `COSTS[tipo]`; `none` models the `KeyError` raised
for a key outside the table. -/
def cost? (tipo : String) : Option ℚ := COSTS.lookup tipo

theorem cost?_def (tipo : String) :
    cost? tipo = if tipo = "hombre" then some 35
      else if tipo = "mujer" then some 30
      else if tipo = "niño" then some 22 else none := by
  by_cases h1 : tipo = "hombre"
  · subst h1; rfl
  · by_cases h2 : tipo = "mujer"
    · subst h2; rfl
    · by_cases h3 : tipo = "niño"
      · subst h3; rfl
      · simp only [cost?, COSTS, List.lookup, beq_eq_false_iff_ne.mpr h1,
          beq_eq_false_iff_ne.mpr h2, beq_eq_false_iff_ne.mpr h3,
          if_neg h1, if_neg h2, if_neg h3]

theorem cost?_eq_some_iff (tipo : String) (c : ℚ) :
    cost? tipo = some c ↔
      (tipo = "hombre" ∧ c = 35) ∨ (tipo = "mujer" ∧ c = 30) ∨
      (tipo = "niño" ∧ c = 22) := by
  rw [cost?_def]
  split_ifs with h1 h2 h3 <;> simp_all [eq_comm]

theorem cost?_isSome_iff (tipo : String) :
    (cost? tipo).isSome = true ↔ tipo ∈ VALID_TYPES := by
  rw [cost?_def]
  unfold VALID_TYPES COSTS
  split_ifs with h1 h2 h3 <;> simp_all

/-! ### `compute_fields` -/

/-- The tuple returned by `compute_fields`. -/
structure Fields where
  costo_unitario : ℚ
  total : ℚ
  inversion_recuperada : ℚ
  ganancia : ℚ
  alerta_precio : Bool
  deriving DecidableEq, Repr

/-- `compute_fields(tipo, cantidad, precio_unitario)` from the source:
the unrounded products are formed first, `ganancia` is the difference of
the unrounded values, and each monetary result is rounded on return.
`none` models the `KeyError` on a `tipo` outside `COSTS`. -/
def compute_fields (tipo : String) (cantidad : ℤ) (precio_unitario : ℚ) :
    Option Fields :=
  (cost? tipo).map fun costo_unit =>
    let total : ℚ := cantidad * precio_unitario
    let inversion : ℚ := cantidad * costo_unit
    let ganancia : ℚ := total - inversion
    let alert : Bool := decide (precio_unitario < costo_unit)
    ⟨costo_unit, round2 total, round2 inversion, round2 ganancia, alert⟩

example : rhe (3/2) = 2 := by norm_num [rhe]
example : rhe (1/2) = 0 := by norm_num [rhe]
example : round2 (2001/200) = 10 := by norm_num [round2, rhe]
example : round2 (6003/200) = 1501/50 := by norm_num [round2, rhe]
example : compute_fields "hombre" 3 40 = some ⟨35, 120, 105, 15, false⟩ := by
  norm_num [compute_fields, cost?, COSTS, List.lookup, round2, rhe]
example : compute_fields "gato" 3 40 = none := rfl

theorem compute_fields_eq_some (tipo : String) (c : ℚ) (hc : cost? tipo = some c)
    (q : ℤ) (p : ℚ) :
    compute_fields tipo q p =
      some ⟨c, round2 (q * p), round2 (q * c), round2 (q * p - q * c),
        decide (p < c)⟩ := by
  unfold compute_fields
  rw [hc]
  rfl

/-- Each cost in the table is an integral rational. -/
theorem cost?_integral (tipo : String) (c : ℚ) (hc : cost? tipo = some c) :
    ∃ m : ℤ, c = (m : ℚ) := by
  rcases (cost?_eq_some_iff tipo c).1 hc with ⟨_, h⟩ | ⟨_, h⟩ | ⟨_, h⟩
  · exact ⟨35, by rw [h]; norm_num⟩
  · exact ⟨30, by rw [h]; norm_num⟩
  · exact ⟨22, by rw [h]; norm_num⟩

/-- **C1**: for every enumerated category, positive integer quantity and
non-negative price, `compute_fields` yields the category's fixed unit cost
(35, 30, 22 for the three categories), `total = round2 (q·p)`,
`investmentRecovered = round2 (q·c)`, and a profit equal to
`round2 (round2 (q·p) - round2 (q·c))`: the rounding order with both
operands rounded to 2 decimals before the subtraction. -/
theorem C1_compute_fields_derived_values
    (tipo : String) (c : ℚ) (hc : cost? tipo = some c)
    (q : ℤ) (hq : 0 < q) (p : ℚ) (hp : 0 ≤ p) :
    (cost? "hombre" = some 35 ∧ cost? "mujer" = some 30 ∧
     cost? "niño" = some 22) ∧
    compute_fields tipo q p =
      some ⟨c, round2 (q * p), round2 (q * c),
        round2 (round2 (q * p) - round2 (q * c)), decide (p < c)⟩ := by
  obtain ⟨m, rfl⟩ := cost?_integral tipo c hc
  refine ⟨⟨rfl, rfl, rfl⟩, ?_⟩
  rw [compute_fields_eq_some tipo m hc q p]
  have hqc : (q : ℚ) * (m : ℚ) = ((q * m : ℤ) : ℚ) := by push_cast; ring
  rw [hqc, ← round2_rounding_order ((q : ℚ) * p) (q * m)]

/-- Witness for C1 at category "hombre", quantity 3, price 40. -/
theorem C1_compute_fields_derived_values_witness :
    (cost? "hombre" = some 35 ∧ cost? "mujer" = some 30 ∧
     cost? "niño" = some 22) ∧
    compute_fields "hombre" 3 40 =
      some ⟨35, round2 (3 * 40), round2 (3 * 35),
        round2 (round2 (3 * 40) - round2 (3 * 35)), decide ((40:ℚ) < 35)⟩ := by
  have h := C1_compute_fields_derived_values "hombre" 35 rfl 3 (by decide)
    40 (by decide)
  push_cast at h
  exact h

/-- **C7**: the derived `priceAlert` flag is true iff the unit price is
strictly below the category's unit cost; price equal to cost is not
flagged. -/
theorem C7_price_alert_iff
    (tipo : String) (c : ℚ) (hc : cost? tipo = some c)
    (q : ℤ) (hq : 0 < q) (p : ℚ) (hp : 0 ≤ p) :
    ∃ F, compute_fields tipo q p = some F ∧
      (F.alerta_precio = true ↔ p < c) ∧ (p = c → F.alerta_precio = false) := by
  refine ⟨_, compute_fields_eq_some tipo c hc q p, ?_, ?_⟩
  · simp
  · intro h
    simp [h]

/-- Witness for C7 at category "hombre", quantity 1, price 35 (= cost). -/
theorem C7_price_alert_iff_witness :
    ∃ F, compute_fields "hombre" 1 35 = some F ∧
      (F.alerta_precio = true ↔ (35:ℚ) < 35) ∧
      ((35:ℚ) = 35 → F.alerta_precio = false) :=
  C7_price_alert_iff "hombre" 35 rfl 1 (by decide) 35 (by decide)

/-- **C9 counterexample**: `compute_fields` does not reject violated
quantity/price preconditions: at non-positive quantity −1 (and at negative
price −5) it still returns derived values instead of failing. -/
theorem C9_counterexample :
    (compute_fields "hombre" (-1) 10).isSome = true ∧
    (compute_fields "hombre" 1 (-5)).isSome = true := by
  constructor <;> rfl

/-- **C9 amended**: `compute_fields` rejects exactly the categories outside
the fixed enumeration; it performs no validation of quantity or price
(those checks live in `add_sale`, which runs them before calling it). -/
theorem C9_amended_rejects_only_bad_category (tipo : String) (q : ℤ) (p : ℚ) :
    (compute_fields tipo q p).isSome = true ↔ tipo ∈ VALID_TYPES := by
  rw [← cost?_isSome_iff tipo]
  unfold compute_fields
  cases cost? tipo <;> simp

/-! ### Sale records and `add_sale` -/

/-- A timezone-naive timestamp with second precision, the value produced
by `datetime.strptime` / stored as `record['datetime']`. -/
structure DateTime where
  year : ℕ
  month : ℕ
  day : ℕ
  hour : ℕ
  minute : ℕ
  second : ℕ
  deriving DecidableEq, Repr

/-- The documented validation failures of `add_sale` (reported to the
caller by an early `return` with an error message in the source). -/
inductive SaleError where
  | invalidCategory
  | invalidQuantity
  | invalidPrice
  deriving DecidableEq, Repr

/-- The dictionary appended to the ledger by `add_sale`. -/
structure SaleRecord where
  dt : DateTime
  tipo : String
  color : String
  cantidad : ℤ
  precio_unitario : ℚ
  costo_unitario : ℚ
  total : ℚ
  inversion_recuperada : ℚ
  ganancia : ℚ
  alerta_precio : Bool
  deriving DecidableEq, Repr

/-- `add_sale` after the timestamp prompt, with the raw console reads
already decoded: a `none` quantity models `int(...)` raising `ValueError`
on a non-integer string, a `none` price models `float(...)` failing.
The checks run in the source's order (category, quantity, price); on any
failure the ledger is returned unchanged together with the documented
error, and on success the record built from `compute_fields` is appended
(note the stored `precio_unitario` is rounded while the derived fields
were computed from the unrounded price). -/
def add_sale (sales : List SaleRecord) (dt : DateTime) (t : String)
    (color : String) (cantidadInput : Option ℤ) (precioInput : Option ℚ) :
    List SaleRecord × Option SaleError :=
  if t ∉ VALID_TYPES then (sales, some .invalidCategory)
  else
    match cantidadInput with
    | none => (sales, some .invalidQuantity)
    | some cantidad =>
      if cantidad ≤ 0 then (sales, some .invalidQuantity)
      else
        match precioInput with
        | none => (sales, some .invalidPrice)
        | some precio =>
          if precio < 0 then (sales, some .invalidPrice)
          else
            match compute_fields t cantidad precio with
            | none => (sales, some .invalidCategory)
            | some F =>
              (sales ++ [⟨dt, t, color, cantidad, round2 precio,
                F.costo_unitario, F.total, F.inversion_recuperada,
                F.ganancia, F.alerta_precio⟩], none)

/-- A sample timestamp used for concrete instances. -/
def demoDT : DateTime := ⟨2025, 12, 29, 10, 15, 0⟩

/-- **C2**: on every invalid input — category outside the enumeration,
missing/non-positive quantity, missing/negative price — `add_sale`
returns the ledger unchanged (same list, hence same length and contents)
paired with the documented error for that input. -/
theorem C2_add_sale_invalid_inputs (sales : List SaleRecord) (dt : DateTime)
    (t : String) (color : String) (ci : Option ℤ) (pi : Option ℚ) :
    (t ∉ VALID_TYPES →
      add_sale sales dt t color ci pi = (sales, some .invalidCategory)) ∧
    (t ∈ VALID_TYPES → (ci = none ∨ ∃ v, ci = some v ∧ v ≤ 0) →
      add_sale sales dt t color ci pi = (sales, some .invalidQuantity)) ∧
    (t ∈ VALID_TYPES → ∀ v, ci = some v → 0 < v →
      (pi = none ∨ ∃ pr, pi = some pr ∧ pr < 0) →
      add_sale sales dt t color ci pi = (sales, some .invalidPrice)) := by
  refine ⟨?_, ?_, ?_⟩
  · intro h
    simp [add_sale, h]
  · intro ht h
    rcases h with h | ⟨v, hv, hv0⟩ <;>
      simp [add_sale, ht, *]
  · intro ht v hv hvpos h
    have hv0 : ¬ v ≤ 0 := not_le.mpr hvpos
    rcases h with h | ⟨pr, hpr, hpr0⟩ <;>
      simp [add_sale, ht, hv, hv0, *]

/-- Witness for C2: a bad category, a zero and a missing quantity, and a
negative price each leave the empty ledger unchanged with the documented
error. -/
theorem C2_add_sale_invalid_inputs_witness :
    add_sale [] demoDT "gato" "rojo" (some 1) (some 1) =
      ([], some .invalidCategory) ∧
    add_sale [] demoDT "hombre" "rojo" (some 0) (some 1) =
      ([], some .invalidQuantity) ∧
    add_sale [] demoDT "hombre" "rojo" none (some 1) =
      ([], some .invalidQuantity) ∧
    add_sale [] demoDT "hombre" "rojo" (some 2) (some (-3)) =
      ([], some .invalidPrice) :=
  ⟨(C2_add_sale_invalid_inputs [] demoDT "gato" "rojo" (some 1) (some 1)).1
      (by decide),
   (C2_add_sale_invalid_inputs [] demoDT "hombre" "rojo" (some 0)
      (some 1)).2.1 (by decide) (Or.inr ⟨0, rfl, le_refl 0⟩),
   (C2_add_sale_invalid_inputs [] demoDT "hombre" "rojo" none
      (some 1)).2.1 (by decide) (Or.inl rfl),
   (C2_add_sale_invalid_inputs [] demoDT "hombre" "rojo" (some 2)
      (some (-3))).2.2 (by decide) 2 rfl (by decide)
      (Or.inr ⟨-3, rfl, by norm_num⟩)⟩

/-- **C10**: the record stored by a successful `add_sale` has its
`precio_unitario` field rounded to 2 decimals, while the derived fields
were computed by `compute_fields` from the unrounded price (in particular
`total = round2 (q·p)` for the raw `p`); consequently at quantity 3 and
price 10.005 the stored `total` (30.02) differs from
`round2(stored quantity · stored price)` (30.00). -/
theorem C10_stored_price_rounded_after_derivation :
    (∀ (sales : List SaleRecord) (dt : DateTime) (t color : String)
      (q : ℤ) (p : ℚ) (c : ℚ), cost? t = some c → t ∈ VALID_TYPES →
      0 < q → 0 ≤ p →
      ∃ F, compute_fields t q p = some F ∧
        add_sale sales dt t color (some q) (some p) =
          (sales ++ [⟨dt, t, color, q, round2 p, F.costo_unitario, F.total,
            F.inversion_recuperada, F.ganancia, F.alerta_precio⟩], none) ∧
        F.total = round2 (q * p)) ∧
    (∃ r, (add_sale [] demoDT "hombre" "negro" (some 3)
        (some (2001/200))).1 = [r] ∧
      r.precio_unitario = round2 (2001/200) ∧
      r.total ≠ round2 ((r.cantidad : ℚ) * r.precio_unitario)) := by
  constructor
  · intro sales dt t color q p c hc ht hq hp
    have hcf := compute_fields_eq_some t c hc q p
    refine ⟨_, hcf, ?_, rfl⟩
    simp [add_sale, ht, not_le.mpr hq, not_lt.mpr hp, hcf]
  · refine ⟨⟨demoDT, "hombre", "negro", 3, 10, 35, 1501/50, 105, -3749/50,
      true⟩, ?_, ?_, ?_⟩
    · have hcf := compute_fields_eq_some "hombre" 35 rfl 3 (2001/200)
      simp [add_sale, hcf, show ("hombre" : String) ∈ VALID_TYPES by decide]
      norm_num [round2, rhe]
    · norm_num [round2, rhe]
    · norm_num [round2, rhe]

/-- Witness for C10's universally quantified part at quantity 3,
price 10.005, category "hombre". -/
theorem C10_stored_price_rounded_after_derivation_witness :
    ∃ F, compute_fields "hombre" 3 (2001/200) = some F ∧
      add_sale [] demoDT "hombre" "negro" (some 3) (some (2001/200)) =
        ([] ++ [⟨demoDT, "hombre", "negro", 3, round2 (2001/200),
          F.costo_unitario, F.total, F.inversion_recuperada, F.ganancia,
          F.alerta_precio⟩], none) ∧
      F.total = round2 ((3 : ℤ) * (2001/200)) :=
  C10_stored_price_rounded_after_derivation.1 [] demoDT "hombre" "negro"
    3 (2001/200) 35 rfl (by decide) (by decide) (by norm_num)

/-! ### Calendar dates and the ISO week calendar -/

/-- A calendar date, the value of `datetime.date()`. -/
structure Date where
  year : ℕ
  month : ℕ
  day : ℕ
  deriving DecidableEq, Repr

/-- `dt.date()`: drop the time-of-day part. -/
def DateTime.date (dt : DateTime) : Date := ⟨dt.year, dt.month, dt.day⟩

/-- Gregorian leap-year rule. -/
def isLeap (y : ℕ) : Bool := (y % 4 == 0 && y % 100 != 0) || y % 400 == 0

/-- Days in the months before month `m`. -/
def daysBeforeMonth (leap : Bool) (m : ℕ) : ℕ :=
  (match m with
   | 1 => 0 | 2 => 31 | 3 => 59 | 4 => 90 | 5 => 120 | 6 => 151
   | 7 => 181 | 8 => 212 | 9 => 243 | 10 => 273 | 11 => 304 | _ => 334) +
  (if leap && m > 2 then 1 else 0)

/-- Ordinal day of the year (1-based). -/
def dayOfYear (y m d : ℕ) : ℕ := daysBeforeMonth (isLeap y) m + d

/-- Proleptic-Gregorian day number: day 1 is 0001-01-01 (a Monday). -/
def rataDie (y m d : ℕ) : ℤ :=
  365 * ((y : ℤ) - 1) + ((y : ℤ) - 1) / 4 - ((y : ℤ) - 1) / 100 +
    ((y : ℤ) - 1) / 400 + (dayOfYear y m d : ℤ)

/-- ISO weekday: 1 = Monday … 7 = Sunday. -/
def isoWeekday (y m d : ℕ) : ℤ := (rataDie y m d - 1) % 7 + 1

/-- The raw ISO week count before the year-boundary adjustment. -/
def isoWeekRaw (y m d : ℕ) : ℤ :=
  ((dayOfYear y m d : ℤ) - isoWeekday y m d + 10) / 7

/-- A year has 53 ISO weeks iff it starts or ends on a Thursday. -/
def isLongYear (y : ℕ) : Bool :=
  isoWeekday y 1 1 == 4 || isoWeekday y 12 31 == 4

/-- `datetime.isocalendar()` restricted to its (ISO year, ISO week)
components: a raw week below 1 belongs to the previous ISO year's last
week, a raw week 53 of a 52-week year is week 1 of the next ISO year. -/
def isocalendar (y m d : ℕ) : ℤ × ℤ :=
  let w := isoWeekRaw y m d
  if w < 1 then ((y : ℤ) - 1, if isLongYear (y - 1) then 53 else 52)
  else if w = 53 ∧ isLongYear y = false then ((y : ℤ) + 1, 1)
  else ((y : ℤ), w)

example : isocalendar 2025 12 29 = (2026, 1) := by decide
example : isocalendar 2025 12 28 = (2025, 52) := by decide
example : isocalendar 2026 1 4 = (2026, 1) := by decide
example : isocalendar 2026 1 5 = (2026, 2) := by decide
example : isocalendar 2023 1 1 = (2022, 52) := by decide
example : isocalendar 2021 1 1 = (2020, 53) := by decide
example : isocalendar 2024 12 31 = (2025, 1) := by decide
example : isoWeekday 2025 12 29 = 1 := by decide

/-! ### Daily and weekly summaries -/

/-- The tuple returned by `daily_summary` / `weekly_summary`. -/
structure Summary where
  total_vendido : ℚ
  ganancia_acum : ℚ
  tipo_mas_rentable : Option String
  tipo_ganancias : List (String × ℚ)
  deriving DecidableEq, Repr

/-- `tipo_ganancias[s['tipo']] += s['ganancia']` on the insertion-ordered
`defaultdict(float)`, modelled as an association list. -/
def addGan : List (String × ℚ) → String → ℚ → List (String × ℚ)
  | [], t, g => [(t, g)]
  | (t', g') :: rest, t, g =>
    if t' = t then (t', g' + g) :: rest else (t', g') :: addGan rest t g

/-- Python's `max(d, key=lambda k: d[k])` over insertion order: scan the
keys keeping the current best, replacing it only on a strictly greater
value (so the first maximum wins). -/
def maxKeyAux : String → ℚ → List (String × ℚ) → String
  | t0, _, [] => t0
  | t0, g0, (t, g) :: rest =>
    if g0 < g then maxKeyAux t g rest else maxKeyAux t0 g0 rest

/-- `max(tipo_ganancias, key=...)` on an empty dict is modelled as `none`
(the source guards with `if tipo_ganancias:`). -/
def maxKey : List (String × ℚ) → Option String
  | [] => none
  | (t, g) :: rest => some (maxKeyAux t g rest)

/-- One iteration of the loop shared by `daily_summary` and
`weekly_summary`: a record failing the filter is skipped; a matching one
adds its stored `total` and `ganancia` to the running sums and its
`ganancia` to its category's entry. -/
def sumStep (pred : SaleRecord → Bool) (acc : ℚ × ℚ × List (String × ℚ))
    (s : SaleRecord) : ℚ × ℚ × List (String × ℚ) :=
  if pred s then
    (acc.1 + s.total, acc.2.1 + s.ganancia, addGan acc.2.2 s.tipo s.ganancia)
  else acc

/-- The summary loop: accumulate left to right from zero, then round the
two sums once at the end and take the most profitable category. -/
def summarize (sales : List SaleRecord) (pred : SaleRecord → Bool) : Summary :=
  let r := sales.foldl (sumStep pred) (0, 0, [])
  ⟨round2 r.1, round2 r.2.1, maxKey r.2.2, r.2.2⟩

/-- The filter of `daily_summary`: the record's calendar date equals the
requested day. -/
def day_pred (d : Date) (s : SaleRecord) : Bool := s.dt.date == d

/-- `daily_summary(sales, dt)` from the source. -/
def daily_summary (sales : List SaleRecord) (d : Date) : Summary :=
  summarize sales (day_pred d)

/-- The filter of `weekly_summary`: the record timestamp's ISO year and
ISO week both match. -/
def week_pred (year week : ℤ) (s : SaleRecord) : Bool :=
  isocalendar s.dt.year s.dt.month s.dt.day == (year, week)

/-- `weekly_summary(sales, year, week)` from the source. -/
def weekly_summary (sales : List SaleRecord) (year week : ℤ) : Summary :=
  summarize sales (week_pred year week)

/-- The `tipo_ganancias` defaultdict accumulated over a list of records,
starting from a given table. -/
def ganFoldFrom (tg : List (String × ℚ)) (l : List SaleRecord) :
    List (String × ℚ) :=
  l.foldl (fun acc s => addGan acc s.tipo s.ganancia) tg

theorem foldl_sumStep (pred : SaleRecord → Bool) (l : List SaleRecord) :
    ∀ (a b : ℚ) (tg : List (String × ℚ)),
      l.foldl (sumStep pred) (a, b, tg) =
        (a + ((l.filter pred).map SaleRecord.total).sum,
         b + ((l.filter pred).map SaleRecord.ganancia).sum,
         ganFoldFrom tg (l.filter pred)) := by
  induction l with
  | nil => intro a b tg; simp [ganFoldFrom]
  | cons s l ih =>
    intro a b tg
    by_cases h : pred s
    · simp only [List.foldl_cons, sumStep, h, if_pos, List.filter_cons_of_pos,
        List.map_cons, List.sum_cons, ih]
      refine congrArg₂ _ (by ring) (congrArg₂ _ (by ring) ?_)
      rfl
    · simp only [List.foldl_cons, sumStep, h, if_neg, List.filter_cons_of_neg,
        ih, Bool.false_eq_true, not_false_eq_true]

/-- `summarize` in terms of filtering the ledger first. -/
theorem summarize_eq (sales : List SaleRecord) (pred : SaleRecord → Bool) :
    summarize sales pred =
      ⟨round2 (((sales.filter pred).map SaleRecord.total).sum),
       round2 (((sales.filter pred).map SaleRecord.ganancia).sum),
       maxKey (ganFoldFrom [] (sales.filter pred)),
       ganFoldFrom [] (sales.filter pred)⟩ := by
  unfold summarize
  rw [foldl_sumStep]
  simp

/-- **C5**: `daily_summary` returns the sum of the stored `total` fields
over the records whose calendar date equals the requested day, rounded to
2 decimals once at the end, and likewise the sum of the stored `ganancia`
fields. -/
theorem C5_daily_summary_sums (sales : List SaleRecord) (d : Date) :
    ((daily_summary sales d).total_vendido =
      round2 (((sales.filter (day_pred d)).map SaleRecord.total).sum)) ∧
    ((daily_summary sales d).ganancia_acum =
      round2 (((sales.filter (day_pred d)).map SaleRecord.ganancia).sum)) ∧
    (∀ s : SaleRecord, day_pred d s = true ↔ s.dt.date = d) := by
  refine ⟨?_, ?_, ?_⟩
  · rw [daily_summary, summarize_eq]
  · rw [daily_summary, summarize_eq]
  · intro s
    simp [day_pred]

theorem addGan_ne_nil (tg : List (String × ℚ)) (t : String) (g : ℚ) :
    addGan tg t g ≠ [] := by
  cases tg with
  | nil => simp [addGan]
  | cons p rest =>
    obtain ⟨t', g'⟩ := p
    by_cases h : t' = t <;> simp [addGan, h]

theorem ganFoldFrom_eq_nil_iff (l : List SaleRecord) :
    ∀ tg : List (String × ℚ), ganFoldFrom tg l = [] ↔ tg = [] ∧ l = [] := by
  induction l with
  | nil => intro tg; simp [ganFoldFrom]
  | cons s l ih =>
    intro tg
    have hstep : ganFoldFrom tg (s :: l) =
        ganFoldFrom (addGan tg s.tipo s.ganancia) l := rfl
    rw [hstep, ih]
    simp [addGan_ne_nil]

theorem maxKey_eq_none_iff (tg : List (String × ℚ)) :
    maxKey tg = none ↔ tg = [] := by
  cases tg with
  | nil => simp [maxKey]
  | cons p rest => obtain ⟨t, g⟩ := p; simp [maxKey]

/-- A window whose filtered subset is empty yields the all-zero summary. -/
theorem summarize_of_filter_nil (sales : List SaleRecord)
    (pred : SaleRecord → Bool) (h : sales.filter pred = []) :
    summarize sales pred = ⟨0, 0, none, []⟩ := by
  rw [summarize_eq, h]
  have h0 : round2 ((List.map SaleRecord.total []).sum) = 0 := by
    norm_num [round2, rhe]
  have h1 : round2 ((List.map SaleRecord.ganancia []).sum) = 0 := by
    norm_num [round2, rhe]
  rw [h0, h1]
  rfl

/-- **C8**: over an empty ledger — and over any ledger in which no record
matches the day or (ISO year, ISO week) window — both summaries return
zero revenue, zero accumulated profit, no most-profitable category and an
empty per-category table; being total functions they raise nothing. -/
theorem C8_empty_window_summaries (sales : List SaleRecord) (d : Date)
    (y w : ℤ) :
    (daily_summary [] d = ⟨0, 0, none, []⟩) ∧
    (weekly_summary [] y w = ⟨0, 0, none, []⟩) ∧
    ((∀ s ∈ sales, day_pred d s = false) →
      daily_summary sales d = ⟨0, 0, none, []⟩) ∧
    ((∀ s ∈ sales, week_pred y w s = false) →
      weekly_summary sales y w = ⟨0, 0, none, []⟩) := by
  refine ⟨?_, ?_, ?_, ?_⟩
  · exact summarize_of_filter_nil [] _ rfl
  · exact summarize_of_filter_nil [] _ rfl
  · intro h
    exact summarize_of_filter_nil sales _
      (List.filter_eq_nil_iff.mpr (by simpa using h))
  · intro h
    exact summarize_of_filter_nil sales _
      (List.filter_eq_nil_iff.mpr (by simpa using h))

/-- The demo record for 2025-12-29 10:15 (3 "hombre" garments at 40):
derived fields as `compute_fields` produces them. -/
def demoRec : SaleRecord :=
  ⟨demoDT, "hombre", "negro", 3, 40, 35, 120, 105, 15, false⟩

/-- Witness for C8: a ledger holding one record dated 2025-12-29 has an
empty day window on 2024-01-01 and an empty ISO window (2025, 52). -/
theorem C8_empty_window_summaries_witness :
    (daily_summary [] ⟨2024, 1, 1⟩ = ⟨0, 0, none, []⟩) ∧
    (weekly_summary [] 2025 52 = ⟨0, 0, none, []⟩) ∧
    (daily_summary [demoRec] ⟨2024, 1, 1⟩ = ⟨0, 0, none, []⟩) ∧
    (weekly_summary [demoRec] 2025 52 = ⟨0, 0, none, []⟩) :=
  ⟨(C8_empty_window_summaries [demoRec] ⟨2024, 1, 1⟩ 2025 52).1,
   (C8_empty_window_summaries [demoRec] ⟨2024, 1, 1⟩ 2025 52).2.1,
   (C8_empty_window_summaries [demoRec] ⟨2024, 1, 1⟩ 2025 52).2.2.1
     (by decide),
   (C8_empty_window_summaries [demoRec] ⟨2024, 1, 1⟩ 2025 52).2.2.2
     (by decide)⟩

/-- **C3**: `weekly_summary` counts a record exactly when the record
timestamp's ISO week-numbering year and ISO week equal the requested
pair (so the summary is unchanged by restricting the ledger to the
matching records); 2025-12-29 belongs to ISO week 1 of ISO year 2026, is
counted by `weekly_summary(2026, 1)` and not by
`weekly_summary(2025, 52)`. -/
theorem C3_weekly_filter_iso_week (sales : List SaleRecord) (y w : ℤ) :
    (∀ s : SaleRecord, week_pred y w s = true ↔
      isocalendar s.dt.year s.dt.month s.dt.day = (y, w)) ∧
    (weekly_summary sales y w =
      weekly_summary (sales.filter (week_pred y w)) y w) ∧
    (isocalendar 2025 12 29 = (2026, 1)) ∧
    (weekly_summary [demoRec] 2026 1 =
      ⟨120, 15, some "hombre", [("hombre", 15)]⟩) ∧
    (weekly_summary [demoRec] 2025 52 = ⟨0, 0, none, []⟩) := by
  refine ⟨?_, ?_, by decide, ?_, ?_⟩
  · intro s
    simp [week_pred]
  · rw [weekly_summary, weekly_summary, summarize_eq, summarize_eq,
      List.filter_filter]
    simp
  · have hp : week_pred 2026 1 demoRec = true := by decide
    rw [weekly_summary, summarize_eq]
    rw [show List.filter (week_pred 2026 1) [demoRec] = [demoRec] from by
      simp [hp]]
    have ht : round2 ((List.map SaleRecord.total [demoRec]).sum) = 120 := by
      norm_num [demoRec, round2, rhe]
    have hg : round2 ((List.map SaleRecord.ganancia [demoRec]).sum) = 15 := by
      norm_num [demoRec, round2, rhe]
    rw [ht, hg]
    rfl
  · exact summarize_of_filter_nil [demoRec] _ (by decide)

/-! ### Lemmas on the per-category profit table, for C6 -/

theorem lookup_addGan_self (tg : List (String × ℚ)) (t : String) (g : ℚ) :
    List.lookup t (addGan tg t g) = some ((List.lookup t tg).getD 0 + g) := by
  induction tg with
  | nil => simp [addGan, List.lookup]
  | cons p rest ih =>
    obtain ⟨t', g'⟩ := p
    by_cases h : t' = t
    · subst h
      simp [addGan, List.lookup]
    · simp [addGan, h, List.lookup, beq_eq_false_iff_ne.mpr (Ne.symm h), ih]

theorem lookup_addGan_ne (tg : List (String × ℚ)) (t t' : String) (g : ℚ)
    (h : t' ≠ t) :
    List.lookup t' (addGan tg t g) = List.lookup t' tg := by
  induction tg with
  | nil => simp [addGan, List.lookup, beq_eq_false_iff_ne.mpr h]
  | cons p rest ih =>
    obtain ⟨t1, g1⟩ := p
    by_cases h1 : t1 = t
    · subst h1
      simp [addGan, List.lookup, beq_eq_false_iff_ne.mpr h]
    · by_cases h2 : t' = t1 <;>
        simp [addGan, h1, List.lookup, ih, h2]

theorem keys_addGan (tg : List (String × ℚ)) (t : String) (g : ℚ) :
    (addGan tg t g).map Prod.fst =
      if t ∈ tg.map Prod.fst then tg.map Prod.fst
      else tg.map Prod.fst ++ [t] := by
  induction tg with
  | nil => simp [addGan]
  | cons p rest ih =>
    obtain ⟨t', g'⟩ := p
    by_cases h : t' = t
    · subst h
      simp [addGan]
    · rw [show addGan ((t', g') :: rest) t g = (t', g') :: addGan rest t g
        from by simp [addGan, h]]
      simp only [List.map_cons, ih]
      by_cases hm : t ∈ rest.map Prod.fst
      · simp [hm, Ne.symm h]
      · simp [hm, Ne.symm h]

theorem nodup_keys_addGan (tg : List (String × ℚ)) (t : String) (g : ℚ)
    (h : (tg.map Prod.fst).Nodup) : ((addGan tg t g).map Prod.fst).Nodup := by
  rw [keys_addGan]
  split_ifs with hm
  · exact h
  · simp [List.nodup_append, h, hm]

theorem nodup_keys_ganFoldFrom (l : List SaleRecord) :
    ∀ tg : List (String × ℚ), (tg.map Prod.fst).Nodup →
      ((ganFoldFrom tg l).map Prod.fst).Nodup := by
  induction l with
  | nil => intro tg h; exact h
  | cons s l ih =>
    intro tg h
    exact ih (addGan tg s.tipo s.ganancia) (nodup_keys_addGan tg s.tipo s.ganancia h)

theorem filter_tipo_eq_nil (l : List SaleRecord) (t : String)
    (h : t ∉ l.map SaleRecord.tipo) :
    l.filter (fun s => s.tipo == t) = [] := by
  refine List.filter_eq_nil_iff.mpr ?_
  intro s hs
  simp only [beq_iff_eq]
  intro hst
  exact h (List.mem_map.mpr ⟨s, hs, hst⟩)

theorem lookup_ganFoldFrom (l : List SaleRecord) :
    ∀ (tg : List (String × ℚ)) (t : String),
      List.lookup t (ganFoldFrom tg l) =
        if t ∈ l.map SaleRecord.tipo then
          some ((List.lookup t tg).getD 0 +
            ((l.filter (fun s => s.tipo == t)).map SaleRecord.ganancia).sum)
        else List.lookup t tg := by
  induction l with
  | nil => intro tg t; simp [ganFoldFrom]
  | cons s l ih =>
    intro tg t
    have hstep : ganFoldFrom tg (s :: l) =
        ganFoldFrom (addGan tg s.tipo s.ganancia) l := rfl
    rw [hstep, ih]
    by_cases hst : s.tipo = t
    · rw [show List.filter (fun s => s.tipo == t) (s :: l) =
          s :: List.filter (fun s => s.tipo == t) l from by
        simp [List.filter_cons, hst]]
      by_cases hmem : t ∈ l.map SaleRecord.tipo
      · rw [if_pos hmem, if_pos (by simp [hst, hmem])]
        rw [hst] at hstep ⊢
        rw [lookup_addGan_self]
        simp [add_assoc]
      · rw [if_neg hmem, if_pos (by simp [hst])]
        rw [hst]
        rw [lookup_addGan_self, filter_tipo_eq_nil l t hmem]
        simp
    · have hlook : List.lookup t (addGan tg s.tipo s.ganancia) =
          List.lookup t tg :=
        lookup_addGan_ne tg s.tipo t s.ganancia (Ne.symm hst)
      rw [show List.filter (fun s => s.tipo == t) (s :: l) =
          List.filter (fun s => s.tipo == t) l from by
        simp [List.filter_cons, hst]]
      by_cases hmem : t ∈ l.map SaleRecord.tipo
      · rw [if_pos hmem, hlook,
          if_pos (show t ∈ (s :: l).map SaleRecord.tipo from by
            simp [List.mem_cons, hmem])]
      · rw [if_neg hmem, hlook,
          if_neg (show t ∉ (s :: l).map SaleRecord.tipo from by
            simp [List.mem_cons, hmem, Ne.symm hst])]

theorem lookup_of_mem_of_nodup (tg : List (String × ℚ)) (t : String) (g : ℚ)
    (hnd : (tg.map Prod.fst).Nodup) (hm : (t, g) ∈ tg) :
    List.lookup t tg = some g := by
  induction tg with
  | nil => simp at hm
  | cons p rest ih =>
    obtain ⟨t', g'⟩ := p
    simp only [List.map_cons, List.nodup_cons] at hnd
    rcases List.mem_cons.mp hm with heq | hmem
    · injection heq with h1 h2
      subst h1
      subst h2
      simp [List.lookup]
    · have ht : t ≠ t' := by
        rintro rfl
        exact hnd.1 (List.mem_map.mpr ⟨(t, g), hmem, rfl⟩)
      rw [show List.lookup t ((t', g') :: rest) = List.lookup t rest from by
        simp [List.lookup, beq_eq_false_iff_ne.mpr ht]]
      exact ih hnd.2 hmem

theorem maxKeyAux_spec (l : List (String × ℚ)) :
    ∀ (t0 : String) (g0 : ℚ),
      ∃ g : ℚ,
        ((maxKeyAux t0 g0 l = t0 ∧ g = g0) ∨ (maxKeyAux t0 g0 l, g) ∈ l) ∧
        g0 ≤ g ∧ ∀ p ∈ l, p.2 ≤ g := by
  induction l with
  | nil =>
    intro t0 g0
    exact ⟨g0, Or.inl ⟨rfl, rfl⟩, le_refl g0, by simp⟩
  | cons p rest ih =>
    intro t0 g0
    obtain ⟨t, g'⟩ := p
    by_cases h : g0 < g'
    · obtain ⟨g, hmem, hle, hall⟩ := ih t g'
      have hred : maxKeyAux t0 g0 ((t, g') :: rest) = maxKeyAux t g' rest := by
        simp [maxKeyAux, h]
      refine ⟨g, ?_, le_trans (le_of_lt h) hle, ?_⟩
      · rcases hmem with ⟨heq, rfl⟩ | hmem
        · exact Or.inr (by rw [hred, heq]; exact List.mem_cons_self _ _)
        · exact Or.inr (by rw [hred]; exact List.mem_cons_of_mem _ hmem)
      · intro p hp
        rcases List.mem_cons.mp hp with rfl | hp
        · exact hle
        · exact hall p hp
    · obtain ⟨g, hmem, hle, hall⟩ := ih t0 g0
      have hred : maxKeyAux t0 g0 ((t, g') :: rest) = maxKeyAux t0 g0 rest := by
        simp [maxKeyAux, h]
      refine ⟨g, ?_, hle, ?_⟩
      · rcases hmem with ⟨heq, rfl⟩ | hmem
        · exact Or.inl ⟨by rw [hred, heq], rfl⟩
        · exact Or.inr (by rw [hred]; exact List.mem_cons_of_mem _ hmem)
      · intro p hp
        rcases List.mem_cons.mp hp with rfl | hp
        · exact le_trans (not_lt.mp h) hle
        · exact hall p hp

theorem maxKey_spec (tg : List (String × ℚ)) (t : String)
    (h : maxKey tg = some t) :
    ∃ g : ℚ, (t, g) ∈ tg ∧ ∀ p ∈ tg, p.2 ≤ g := by
  cases tg with
  | nil => simp [maxKey] at h
  | cons p rest =>
    obtain ⟨t1, g1⟩ := p
    rw [maxKey, Option.some_inj] at h
    obtain ⟨g, hmem, hle, hall⟩ := maxKeyAux_spec rest t1 g1
    refine ⟨g, ?_, ?_⟩
    · rcases hmem with ⟨heq, rfl⟩ | hmem
      · rw [← h, heq]
        exact List.mem_cons_self _ _
      · rw [← h]
        exact List.mem_cons_of_mem _ hmem
    · intro p hp
      rcases List.mem_cons.mp hp with rfl | hp
      · exact hle
      · exact hall p hp

/-- **C6**: the per-category profit table of a summary (`tipo_ganancias`)
is keyed exactly by the categories with at least one matching record, maps
each to the unrounded sum of the `ganancia` of its matching records (keys
are unique), the reported most profitable category is a key whose value is
greater than or equal to every value in the table, and it is `none`
exactly when no record matched. Both `daily_summary` and `weekly_summary`
are `summarize` at their respective filters. -/
theorem C6_profit_by_category (sales : List SaleRecord)
    (pred : SaleRecord → Bool) :
    (((summarize sales pred).tipo_ganancias.map Prod.fst).Nodup) ∧
    (∀ t : String,
      (∃ g, (summarize sales pred).tipo_ganancias.lookup t = some g) ↔
        ∃ s ∈ sales.filter pred, s.tipo = t) ∧
    (∀ t g, (summarize sales pred).tipo_ganancias.lookup t = some g →
      g = (((sales.filter pred).filter (fun s => s.tipo == t)).map
        SaleRecord.ganancia).sum) ∧
    (∀ t, (summarize sales pred).tipo_mas_rentable = some t →
      ∃ g, (summarize sales pred).tipo_ganancias.lookup t = some g ∧
        ∀ p ∈ (summarize sales pred).tipo_ganancias, p.2 ≤ g) ∧
    ((summarize sales pred).tipo_mas_rentable = none ↔
      sales.filter pred = []) := by
  rw [summarize_eq]
  refine ⟨?_, ?_, ?_, ?_, ?_⟩
  · exact nodup_keys_ganFoldFrom _ [] (by simp)
  · intro t
    rw [lookup_ganFoldFrom]
    by_cases hm : t ∈ (sales.filter pred).map SaleRecord.tipo
    · rw [if_pos hm]
      have hm' := List.mem_map.mp hm
      exact ⟨fun _ => hm', fun _ => ⟨_, rfl⟩⟩
    · rw [if_neg hm]
      constructor
      · intro hex
        obtain ⟨g, hg⟩ := hex
        simp [List.lookup] at hg
      · intro hex
        exact absurd (List.mem_map.mpr hex) hm
  · intro t g hg
    rw [lookup_ganFoldFrom] at hg
    by_cases hm : t ∈ (sales.filter pred).map SaleRecord.tipo
    · rw [if_pos hm] at hg
      simp only [List.lookup, Option.getD_none] at hg
      injection hg with hg
      rw [← hg, zero_add]
    · rw [if_neg hm] at hg
      simp [List.lookup] at hg
  · intro t ht
    obtain ⟨g, hmem, hall⟩ := maxKey_spec _ t ht
    refine ⟨g, ?_, hall⟩
    exact lookup_of_mem_of_nodup _ t g (nodup_keys_ganFoldFrom _ [] (by simp))
      hmem
  · rw [maxKey_eq_none_iff, ganFoldFrom_eq_nil_iff]
    simp

/-- Witness for C6's hypothesised parts at the one-record ledger filtered
on 2025-12-29: the table maps "hombre" to 15, and "hombre" is reported
most profitable with value bounding the table. -/
theorem C6_profit_by_category_witness :
    ((15 : ℚ) =
      ((([demoRec].filter (day_pred ⟨2025, 12, 29⟩)).filter
        (fun s => s.tipo == "hombre")).map SaleRecord.ganancia).sum) ∧
    (∃ g, (summarize [demoRec]
          (day_pred ⟨2025, 12, 29⟩)).tipo_ganancias.lookup "hombre" = some g ∧
      ∀ p ∈ (summarize [demoRec]
          (day_pred ⟨2025, 12, 29⟩)).tipo_ganancias, p.2 ≤ g) :=
  ⟨(C6_profit_by_category [demoRec] (day_pred ⟨2025, 12, 29⟩)).2.2.1
      "hombre" 15 rfl,
   (C6_profit_by_category [demoRec] (day_pred ⟨2025, 12, 29⟩)).2.2.2.1
      "hombre" rfl⟩

/-! ### `parse_datetime`

The three `strptime` formats are embedded with CPython's `_strptime`
regular expressions for the numeric directives (`%Y` exactly four digits;
`%m`, `%d`, `%H`, `%M`, `%S` one or two digits with their documented
ranges), followed by the full-length check and the validity check that
`datetime(...)` performs on construction. -/

/-- Decimal value of a digit character. -/
def dval (c : Char) : ℕ := c.toNat - 48

/-- `%Y`: exactly four digits. -/
def pYear : List Char → Option (ℕ × List Char)
  | a :: b :: c :: d :: rest =>
    if a.isDigit && b.isDigit && c.isDigit && d.isDigit then
      some (dval a * 1000 + dval b * 100 + dval c * 10 + dval d, rest)
    else none
  | _ => none

/-- A single literal character of the format string. -/
def pChar (ch : Char) : List Char → Option (List Char)
  | c :: rest => if c = ch then some rest else none
  | [] => none

/-- `%m`: regex `1[0-2]|0[1-9]|[1-9]`. -/
def pMonth : List Char → Option (ℕ × List Char)
  | '1' :: c :: rest =>
    if c.isDigit && c.toNat ≤ 50 then some (10 + dval c, rest)
    else some (1, c :: rest)
  | '0' :: c :: rest =>
    if c.isDigit && c != '0' then some (dval c, rest) else none
  | c :: rest =>
    if c.isDigit && c != '0' then some (dval c, rest) else none
  | [] => none

/-- `%d`: regex `3[01]|[12]\d|0[1-9]|[1-9]`. -/
def pDay : List Char → Option (ℕ × List Char)
  | '3' :: c :: rest =>
    if c == '0' || c == '1' then some (30 + dval c, rest)
    else some (3, c :: rest)
  | '1' :: c :: rest =>
    if c.isDigit then some (10 + dval c, rest) else some (1, c :: rest)
  | '2' :: c :: rest =>
    if c.isDigit then some (20 + dval c, rest) else some (2, c :: rest)
  | '0' :: c :: rest =>
    if c.isDigit && c != '0' then some (dval c, rest) else none
  | c :: rest =>
    if c.isDigit && c != '0' then some (dval c, rest) else none
  | [] => none

/-- `%H`: regex `2[0-3]|[0-1]\d|\d`. -/
def pHour : List Char → Option (ℕ × List Char)
  | '2' :: c :: rest =>
    if c.isDigit && c.toNat ≤ 51 then some (20 + dval c, rest)
    else some (2, c :: rest)
  | c :: d :: rest =>
    if (c == '0' || c == '1') && d.isDigit then
      some (dval c * 10 + dval d, rest)
    else if c.isDigit then some (dval c, d :: rest)
    else none
  | [c] => if c.isDigit then some (dval c, []) else none
  | [] => none

/-- `%M`: regex `[0-5]\d|\d`. -/
def pMin : List Char → Option (ℕ × List Char)
  | c :: d :: rest =>
    if c.isDigit && c.toNat ≤ 53 && d.isDigit then
      some (dval c * 10 + dval d, rest)
    else if c.isDigit then some (dval c, d :: rest)
    else none
  | [c] => if c.isDigit then some (dval c, []) else none
  | [] => none

/-- `%S`: regex `6[0-1]|[0-5]\d|\d` (60 and 61 are later rejected by the
`datetime` constructor). -/
def pSec : List Char → Option (ℕ × List Char)
  | '6' :: c :: rest =>
    if c == '0' || c == '1' then some (60 + dval c, rest)
    else some (6, c :: rest)
  | c :: d :: rest =>
    if c.isDigit && c.toNat ≤ 53 && d.isDigit then
      some (dval c * 10 + dval d, rest)
    else if c.isDigit then some (dval c, d :: rest)
    else none
  | [c] => if c.isDigit then some (dval c, []) else none
  | [] => none

/-- The shared `%Y-%m-%d` prefix of all three formats. -/
def parseYMD (cs : List Char) : Option (ℕ × ℕ × ℕ × List Char) :=
  match pYear cs with
  | none => none
  | some (y, r1) =>
    match pChar '-' r1 with
    | none => none
    | some r2 =>
      match pMonth r2 with
      | none => none
      | some (m, r3) =>
        match pChar '-' r3 with
        | none => none
        | some r4 =>
          match pDay r4 with
          | none => none
          | some (d, r5) => some (y, m, d, r5)

/-- Length of a month, Gregorian. -/
def daysInMonth (y m : ℕ) : ℕ :=
  if m = 2 then (if isLeap y then 29 else 28)
  else if m = 4 ∨ m = 6 ∨ m = 9 ∨ m = 11 then 30 else 31

/-- The checks `datetime(...)` performs on construction that the regexes
do not already guarantee: `MINYEAR ≤ year` and a real day of month. -/
def validDate (y m d : ℕ) : Bool := 1 ≤ y && 1 ≤ d && d ≤ daysInMonth y m

/-- `strptime(s, '%Y-%m-%d %H:%M')` (full match, then construction). -/
def tryFmt1 (s : String) : Option DateTime :=
  match parseYMD s.toList with
  | none => none
  | some (y, m, d, r) =>
    match pChar ' ' r with
    | none => none
    | some r2 =>
      match pHour r2 with
      | none => none
      | some (hh, r3) =>
        match pChar ':' r3 with
        | none => none
        | some r4 =>
          match pMin r4 with
          | none => none
          | some (mm, r5) =>
            if r5 = [] ∧ validDate y m d then some ⟨y, m, d, hh, mm, 0⟩
            else none

/-- `strptime(s, '%Y-%m-%d %H:%M:%S')`. -/
def tryFmt2 (s : String) : Option DateTime :=
  match parseYMD s.toList with
  | none => none
  | some (y, m, d, r) =>
    match pChar ' ' r with
    | none => none
    | some r2 =>
      match pHour r2 with
      | none => none
      | some (hh, r3) =>
        match pChar ':' r3 with
        | none => none
        | some r4 =>
          match pMin r4 with
          | none => none
          | some (mm, r5) =>
            match pChar ':' r5 with
            | none => none
            | some r6 =>
              match pSec r6 with
              | none => none
              | some (ss, r7) =>
                if r7 = [] ∧ validDate y m d ∧ ss ≤ 59 then
                  some ⟨y, m, d, hh, mm, ss⟩
                else none

/-- `strptime(s, '%Y-%m-%d')` followed by the source's explicit
`datetime(d.year, d.month, d.day, 0, 0)` (midnight). -/
def tryFmt3 (s : String) : Option DateTime :=
  match parseYMD s.toList with
  | none => none
  | some (y, m, d, r) =>
    if r = [] ∧ validDate y m d then some ⟨y, m, d, 0, 0, 0⟩ else none

/-- Python `str.strip()` (ASCII whitespace suffices for the tokens the
source compares against). -/
def pyStrip (s : String) : String :=
  ⟨((s.toList.dropWhile Char.isWhitespace).reverse.dropWhile
      Char.isWhitespace).reverse⟩

/-- Python `str.lower()` on the relevant ASCII range. -/
def pyLower (s : String) : String := ⟨s.toList.map Char.toLower⟩

/-- `s.strip().lower() in ('now', '')`. -/
def isNowToken (s : String) : Bool :=
  pyLower (pyStrip s) == "now" || pyLower (pyStrip s) == ""

/-- `parse_datetime(s)` from the source: the `now`/empty tokens give the
current time (passed here as `now`); otherwise the three formats are
tried in order and the first success wins; `none` models the
`ValueError('Formato de fecha inválido…')` raised when none matches. -/
def parse_datetime (now : DateTime) (s : String) : Option DateTime :=
  if isNowToken s then some now
  else
    match tryFmt1 s with
    | some d => some d
    | none =>
      match tryFmt2 s with
      | some d => some d
      | none => tryFmt3 s

example : tryFmt3 "2025-12-29" = some ⟨2025, 12, 29, 0, 0, 0⟩ := by decide
example : tryFmt1 "2025-12-29 10:15" = some ⟨2025, 12, 29, 10, 15, 0⟩ := by
  decide
example : tryFmt1 "2025-12-29 10:15:30" = none := by decide
example : tryFmt2 "2025-12-29 10:15:30" = some ⟨2025, 12, 29, 10, 15, 30⟩ := by
  decide
example : tryFmt3 "2025-2-5" = some ⟨2025, 2, 5, 0, 0, 0⟩ := by decide
example : tryFmt3 "2025-02-30" = none := by decide
example : tryFmt2 "2025-12-29 10:15:61" = none := by decide
example : isNowToken "  NOW " = true := by decide

/-- **C4**: `parse_datetime` accepts the literal `now`/empty token (the
current time), else tries `%Y-%m-%d %H:%M`, `%Y-%m-%d %H:%M:%S` and
`%Y-%m-%d` in that order with the first success winning (the date-only
form parsing to midnight), and fails when none matches; concretely
"2025-12-29" ↦ 2025-12-29T00:00:00, "2025-12-29 10:15" ↦
2025-12-29T10:15:00, and "bad-input" fails. -/
theorem C4_parse_datetime_formats (now : DateTime) (s : String) :
    (isNowToken s = true → parse_datetime now s = some now) ∧
    (isNowToken s = false → ∀ dt, tryFmt1 s = some dt →
      parse_datetime now s = some dt) ∧
    (isNowToken s = false → tryFmt1 s = none → ∀ dt, tryFmt2 s = some dt →
      parse_datetime now s = some dt) ∧
    (isNowToken s = false → tryFmt1 s = none → tryFmt2 s = none →
      parse_datetime now s = tryFmt3 s) ∧
    (∀ dt, tryFmt3 s = some dt →
      dt.hour = 0 ∧ dt.minute = 0 ∧ dt.second = 0) ∧
    (∀ dt, parse_datetime now s = some dt →
      (isNowToken s = true ∧ dt = now) ∨ tryFmt1 s = some dt ∨
      tryFmt2 s = some dt ∨ tryFmt3 s = some dt) ∧
    (parse_datetime now "2025-12-29" = some ⟨2025, 12, 29, 0, 0, 0⟩) ∧
    (parse_datetime now "2025-12-29 10:15" = some ⟨2025, 12, 29, 10, 15, 0⟩) ∧
    (parse_datetime now "2025-12-29 10:15:30" =
      some ⟨2025, 12, 29, 10, 15, 30⟩) ∧
    (parse_datetime now "bad-input" = none) ∧
    (parse_datetime now "now" = some now) ∧
    (parse_datetime now "" = some now) := by
  refine ⟨?_, ?_, ?_, ?_, ?_, ?_, ?_, ?_, ?_, ?_, ?_, ?_⟩
  · intro h
    simp [parse_datetime, h]
  · intro hn dt h1
    simp [parse_datetime, hn, h1]
  · intro hn h1 dt h2
    simp [parse_datetime, hn, h1, h2]
  · intro hn h1 h2
    simp [parse_datetime, hn, h1, h2]
  · intro dt h
    unfold tryFmt3 at h
    rcases hy : parseYMD s.toList with _ | ⟨y, m, d, r⟩
    · rw [hy] at h
      exact absurd h (by simp)
    · simp only [hy] at h
      split_ifs at h with hc
      injection h with h
      subst h
      exact ⟨rfl, rfl, rfl⟩
  · intro dt h
    unfold parse_datetime at h
    by_cases hn : isNowToken s
    · rw [if_pos hn] at h
      injection h with h
      exact Or.inl ⟨hn, h.symm⟩
    · rw [if_neg hn] at h
      rcases h1 : tryFmt1 s with _ | d1
      · simp only [h1] at h
        rcases h2 : tryFmt2 s with _ | d2
        · simp only [h2] at h
          exact Or.inr (Or.inr (Or.inr h))
        · simp only [h2] at h
          exact Or.inr (Or.inr (Or.inl h))
      · simp only [h1] at h
        exact Or.inr (Or.inl h)
  · simp [parse_datetime, show isNowToken "2025-12-29" = false from by decide,
      show tryFmt1 "2025-12-29" = none from by decide,
      show tryFmt2 "2025-12-29" = none from by decide,
      show tryFmt3 "2025-12-29" = some ⟨2025, 12, 29, 0, 0, 0⟩ from by decide]
  · simp [parse_datetime,
      show isNowToken "2025-12-29 10:15" = false from by decide,
      show tryFmt1 "2025-12-29 10:15" = some ⟨2025, 12, 29, 10, 15, 0⟩
        from by decide]
  · simp [parse_datetime,
      show isNowToken "2025-12-29 10:15:30" = false from by decide,
      show tryFmt1 "2025-12-29 10:15:30" = none from by decide,
      show tryFmt2 "2025-12-29 10:15:30" = some ⟨2025, 12, 29, 10, 15, 30⟩
        from by decide]
  · simp [parse_datetime, show isNowToken "bad-input" = false from by decide,
      show tryFmt1 "bad-input" = none from by decide,
      show tryFmt2 "bad-input" = none from by decide,
      show tryFmt3 "bad-input" = none from by decide]
  · simp [parse_datetime, show isNowToken "now" = true from by decide]
  · simp [parse_datetime, show isNowToken "" = true from by decide]

/-- Witness for C4 at "2025-12-29 10:15": the first format matches and
wins. -/
theorem C4_parse_datetime_formats_witness :
    parse_datetime demoDT "2025-12-29 10:15" =
      some ⟨2025, 12, 29, 10, 15, 0⟩ :=
  (C4_parse_datetime_formats demoDT "2025-12-29 10:15").2.1 (by decide)
    ⟨2025, 12, 29, 10, 15, 0⟩ (by decide)

end Ventas
